import Mathlib

set_option maxHeartbeats 1000000

/-!
Verification development for the Costa-BB multi-tenant backend skeleton.

The development shallowly embeds the tenant-scoped data-access layer
(`app/repositories/base.py`), the project-context middleware
(`app/middleware/project_context.py`), the project / database / repository
dependencies (`app/deps/project.py`, `app/deps/db.py`, `app/deps/repository.py`)
and the health-check route (`app/api/v1/routes_example.py`).

A database is a list of rows; a row carries the columns that the repository
layer manipulates (`id`, `project_id`, `deleted_at`, `created_at`) plus an
association list for the remaining model columns.  SQLAlchemy queries are
embedded as list pipelines: each chained `.where` clause becomes a
`List.filter`, `ORDER BY` becomes a sort, `OFFSET`/`LIMIT` become
`List.drop`/`List.take`, and `scalar_one_or_none` becomes a function that
errors on lists of length two or more.  Python exceptions are embedded as an
`Except` error channel.
-/

namespace CostaBB

/-- A column value: a (numeric stand-in for a) concrete value, or SQL NULL /
Python `None`. UUIDs and timestamps are represented by naturals. -/
inductive Val where
  | nat (n : Nat)
  | null
deriving DecidableEq, Repr

/-- Read a value as a natural, defaulting NULL to 0 (used only for NOT NULL
columns, where the source would fail at the database layer instead). -/
def Val.toNatD : Val → Nat
  | .nat n => n
  | .null => 0

/-- Read a value as an optional natural (for the nullable `deleted_at`). -/
def Val.toOptNat : Val → Option Nat
  | .nat n => some n
  | .null => none

/-- Semantics of the SQLAlchemy comparison `column == value` used by the
filter loops in `BaseRepository.list`/`count`: comparing against Python
`None` compiles to `IS NULL`; comparing SQL NULL against a concrete value
does not match. -/
def sqlEqVal : Val → Val → Bool
  | c, .null => c == .null
  | .null, .nat _ => false
  | .nat a, .nat b => a == b

/-- The statically known shape of a SQLAlchemy model class, as far as the
repository layer inspects it with `hasattr`: whether it mixes in
`SoftDeleteMixin` (a `deleted_at` column), whether it has a `created_at`
column, and the names of its remaining columns.  Every model handled by
`BaseRepository` has `id` and `project_id` (`BaseUUIDModel` +
`ProjectScopedMixin`). -/
structure Model where
  hasSoftDelete : Bool
  hasCreatedAt : Bool
  cols : List String
deriving DecidableEq, Repr

/-- A database row for some model: `id` primary key, `project_id` tenant
column, nullable `deleted_at`, `created_at`, and the remaining columns as an
association list. -/
structure Row where
  id : Nat
  project_id : Nat
  deleted_at : Option Nat
  created_at : Nat
  vals : List (String × Val)
deriving DecidableEq, Repr

/-- Embedding of `hasattr(self.model, key)` for the column names the
repository layer can encounter. -/
def Model.hasAttr (m : Model) (key : String) : Bool :=
  key == "id" || key == "project_id" || (m.hasSoftDelete && key == "deleted_at")
    || (m.hasCreatedAt && key == "created_at") || m.cols.contains key

/-- Embedding of `getattr(row, key)` for a column read. An absent entry in
the association list reads as NULL. -/
def Row.getCol (r : Row) (key : String) : Val :=
  if key == "id" then .nat r.id
  else if key == "project_id" then .nat r.project_id
  else if key == "deleted_at" then
    match r.deleted_at with
    | some t => .nat t
    | none => .null
  else if key == "created_at" then .nat r.created_at
  else
    match r.vals.lookup key with
    | some v => v
    | none => .null

/-- Embedding of assigning one column of a row (one key/value pair of an
UPDATE's `.values(**data)` or of the model constructor `self.model(**data)`). -/
def Row.setCol (r : Row) (key : String) (v : Val) : Row :=
  if key == "id" then { r with id := v.toNatD }
  else if key == "project_id" then { r with project_id := v.toNatD }
  else if key == "deleted_at" then { r with deleted_at := v.toOptNat }
  else if key == "created_at" then { r with created_at := v.toNatD }
  else { r with vals := (r.vals.filter (fun kv => kv.1 ≠ key)) ++ [(key, v)] }

/-- Apply a `**data` dictionary (association list, keys unique in Python) to
a row, column by column, in order. -/
def applyData : List (String × Val) → Row → Row
  | [], r => r
  | kv :: rest, r => applyData rest (r.setCol kv.1 kv.2)

/-- The Python exceptions that appear in the embedded components. -/
inductive PyExc where
  | valueError (msg : String)
  | attributeError (msg : String)
  | multipleResultsFound
  | sqlAlchemyError (msg : String)
  | httpError (status : Nat) (detail : String)
deriving DecidableEq, Repr

instance {ε α : Type} [DecidableEq ε] [DecidableEq α] : DecidableEq (Except ε α) :=
  fun a b =>
    match a, b with
    | .ok x, .ok y =>
        if h : x = y then .isTrue (by rw [h])
        else .isFalse (fun hc => h (Except.ok.inj hc))
    | .ok _, .error _ => .isFalse (fun hc => Except.noConfusion hc)
    | .error _, .ok _ => .isFalse (fun hc => Except.noConfusion hc)
    | .error e, .error f =>
        if h : e = f then .isTrue (by rw [h])
        else .isFalse (fun hc => h (Except.error.inj hc))

/-- Exceptions caught by `except SQLAlchemyError`: `MultipleResultsFound`
is a SQLAlchemy exception class. -/
def PyExc.isSQLAlchemyError : PyExc → Bool
  | .sqlAlchemyError _ => true
  | .multipleResultsFound => true
  | _ => false

/-- Embedding of SQLAlchemy `Result.scalar_one_or_none()`: `none` on an
empty result, the unique element of a singleton, and `MultipleResultsFound`
otherwise. -/
def scalarOneOrNone {α : Type} : List α → Except PyExc (Option α)
  | [] => .ok none
  | [a] => .ok (some a)
  | _ :: _ :: _ => .error .multipleResultsFound

/-- The state of a `BaseRepository` instance: the tenant boundary
`project_id` and the model class.  The session is passed explicitly as a
database value to each operation. -/
structure BaseRepository where
  project_id : Nat
  model : Model
deriving DecidableEq, Repr

namespace BaseRepository

/-- Embedding of `BaseRepository.__init__`: a `None` project id raises
`ValueError` (every embedded model has a `project_id` attribute, as
`ProjectScopedMixin` mandates, so the second `__init__` check passes). -/
def init (project_id : Option Nat) (model : Model) : Except PyExc BaseRepository :=
  match project_id with
  | none => .error (.valueError "project_id is required and cannot be None")
  | some p => .ok { project_id := p, model := model }

/-- Embedding of `BaseRepository._enforce_project_filter`:
`query.where(self.model.project_id == self.project_id)`. -/
def enforceProject (repo : BaseRepository) (q : List Row) : List Row :=
  q.filter (fun r => r.project_id == repo.project_id)

/-- Embedding of `BaseRepository._apply_soft_delete_filter`:
`query.where(self.model.deleted_at.is_(None))` when the model has soft
delete, the query unchanged otherwise. -/
def applySoftDeleteFilter (repo : BaseRepository) (q : List Row) : List Row :=
  if repo.model.hasSoftDelete then q.filter (fun r => r.deleted_at == none) else q

/-- Embedding of `BaseRepository._check_project_id`: reject a `project_id`
entry different from the repository's, inject the repository's `project_id`
when the entry is absent. -/
def checkProjectId (repo : BaseRepository) (data : List (String × Val)) :
    Except PyExc (List (String × Val)) :=
  match data.lookup "project_id" with
  | some v =>
      if v ≠ Val.nat repo.project_id then
        .error (.valueError ("Cannot set project_id to " ++ reprStr v ++
          ". This repository is scoped to project " ++ toString repo.project_id))
      else .ok data
  | none => .ok (data ++ [("project_id", Val.nat repo.project_id)])

/-- The rows produced by the query of `BaseRepository.get_by_id`:
`select(model).where(id == id)`, then the project filter, then the soft
delete filter unless `include_deleted`. -/
def getByIdRows (repo : BaseRepository) (db : List Row) (id : Nat)
    (include_deleted : Bool) : List Row :=
  let q := db.filter (fun r => r.id == id)
  let q := repo.enforceProject q
  if include_deleted then q else repo.applySoftDeleteFilter q

/-- Embedding of `BaseRepository.get_by_id`. -/
def get_by_id (repo : BaseRepository) (db : List Row) (id : Nat)
    (include_deleted : Bool) : Except PyExc (Option Row) :=
  scalarOneOrNone (repo.getByIdRows db id include_deleted)

/-- Embedding of the `for key, value in filters.items()` loop of
`BaseRepository.list`/`count`: keys that are model attributes add an
equality filter, other keys are skipped. -/
def applyFilters (m : Model) : List (String × Val) → List Row → List Row
  | [], q => q
  | kv :: rest, q =>
      applyFilters m rest
        (if m.hasAttr kv.1 then q.filter (fun r => sqlEqVal (r.getCol kv.1) kv.2) else q)

/-- Insertion step of the sort embedding `ORDER BY`. -/
def insertLe (le : Row → Row → Bool) (x : Row) : List Row → List Row
  | [] => [x]
  | y :: ys => if le x y then x :: y :: ys else y :: insertLe le x ys

/-- Insertion sort by a boolean comparison, embedding `ORDER BY`. -/
def sortLe (le : Row → Row → Bool) : List Row → List Row
  | [] => []
  | x :: xs => insertLe le x (sortLe le xs)

/-- The default ordering of `BaseRepository.list`:
`self.model.created_at.desc()`. -/
def createdAtDesc (a b : Row) : Bool :=
  Nat.ble b.created_at a.created_at

/-- The rows kept by the shared filter pipeline of `BaseRepository.list` and
`BaseRepository.count`: project filter, then keyword filters, then the soft
delete filter unless `include_deleted`. -/
def listRows (repo : BaseRepository) (db : List Row) (include_deleted : Bool)
    (filters : List (String × Val)) : List Row :=
  let q := repo.enforceProject db
  let q := applyFilters repo.model filters q
  if include_deleted then q else repo.applySoftDeleteFilter q

/-- Embedding of `BaseRepository.list`: the filter pipeline, then ordering
(the `order_by` argument, defaulting to `created_at` descending when the
model has a `created_at` column), then `offset(skip).limit(limit)`. -/
def list (repo : BaseRepository) (db : List Row) (skip limit : Nat)
    (include_deleted : Bool) (order_by : Option (Row → Row → Bool))
    (filters : List (String × Val)) : List Row :=
  let q := repo.listRows db include_deleted filters
  let q :=
    match order_by with
    | some le => sortLe le q
    | none => if repo.model.hasCreatedAt then sortLe createdAtDesc q else q
  (q.drop skip).take limit

/-- Embedding of `BaseRepository.create`: `_check_project_id`, then the
model constructor (fresh primary key and `created_at` supplied by the
database defaults) and `session.add`/`flush`, appending the new row. An
exception leaves the database unchanged (no row value is produced). -/
def create (repo : BaseRepository) (db : List Row) (freshId now : Nat)
    (data : List (String × Val)) : Except PyExc (Row × List Row) :=
  match repo.checkProjectId data with
  | .error e => .error e
  | .ok checked =>
      let inst := applyData checked
        { id := freshId, project_id := 0, deleted_at := none, created_at := now, vals := [] }
      .ok (inst, db ++ [inst])

/-- The WHERE clause of the UPDATE statement of `BaseRepository.update`:
`and_(id == id, project_id == self.project_id)` plus the soft delete
condition when the model has soft delete. -/
def updMatch (repo : BaseRepository) (id : Nat) (r : Row) : Bool :=
  r.id == id && r.project_id == repo.project_id &&
    (!repo.model.hasSoftDelete || r.deleted_at == none)

/-- Execution of the UPDATE ... RETURNING statement of
`BaseRepository.update` after the `project_id` guard: matching rows receive
the new values, the returned rows go through `scalar_one_or_none`. -/
def updateApply (repo : BaseRepository) (db : List Row) (id : Nat)
    (data : List (String × Val)) : Except PyExc (Option Row × List Row) :=
  let newDb := db.map (fun r => if repo.updMatch id r then applyData data r else r)
  match scalarOneOrNone ((db.filter (repo.updMatch id)).map (applyData data)) with
  | .error e => .error e
  | .ok res => .ok (res, newDb)

/-- Embedding of `BaseRepository.update`: a differing `project_id` entry
raises `ValueError` before any write; a matching one is deleted from the
payload; then the UPDATE runs. -/
def update (repo : BaseRepository) (db : List Row) (id : Nat)
    (data : List (String × Val)) : Except PyExc (Option Row × List Row) :=
  match data.lookup "project_id" with
  | some v =>
      if v ≠ Val.nat repo.project_id then
        .error (.valueError ("Cannot change project_id. Record belongs to project " ++
          toString repo.project_id))
      else repo.updateApply db id (data.filter (fun kv => kv.1 ≠ "project_id"))
  | none => repo.updateApply db id data

/-- Embedding of `BaseRepository.soft_delete`: `AttributeError` when the
model has no `deleted_at` field, otherwise `update(id, deleted_at=now)`. -/
def soft_delete (repo : BaseRepository) (db : List Row) (id : Nat) (now : Nat) :
    Except PyExc (Option Row × List Row) :=
  if !repo.model.hasSoftDelete then
    .error (.attributeError "Model does not support soft delete. Use delete() instead.")
  else
    repo.update db id [("deleted_at", Val.nat now)]

/-- The WHERE clause of the SELECT of `BaseRepository.delete`:
`and_(id == id, project_id == self.project_id)` — no soft delete filter. -/
def delMatch (repo : BaseRepository) (id : Nat) (r : Row) : Bool :=
  r.id == id && r.project_id == repo.project_id

/-- Embedding of `BaseRepository.delete`: select the row by id within the
project (soft-deleted rows included), then `session.delete` it and return
`true`, or return `false` when it is not found. -/
def delete (repo : BaseRepository) (db : List Row) (id : Nat) :
    Except PyExc (Bool × List Row) :=
  match scalarOneOrNone (db.filter (repo.delMatch id)) with
  | .error e => .error e
  | .ok none => .ok (false, db)
  | .ok (some _) => .ok (true, db.eraseP (repo.delMatch id))

/-- Embedding of `BaseRepository.count`: the same filter pipeline as
`list` (project filter, keyword filters, soft delete filter), counted. -/
def count (repo : BaseRepository) (db : List Row) (include_deleted : Bool)
    (filters : List (String × Val)) : Nat :=
  (repo.listRows db include_deleted filters).length

/-- The id column selected by the query of `BaseRepository.exists`. -/
def existsRows (repo : BaseRepository) (db : List Row) (id : Nat)
    (include_deleted : Bool) : List Nat :=
  let q := db.filter (fun r => r.id == id)
  let q := repo.enforceProject q
  let q := if include_deleted then q else repo.applySoftDeleteFilter q
  q.map Row.id

/-- Embedding of `BaseRepository.exists` (`exists` is a Lean keyword, hence
the name): `scalar_one_or_none` on the selected id, `is not None`. -/
def existsRecord (repo : BaseRepository) (db : List Row) (id : Nat)
    (include_deleted : Bool) : Except PyExc Bool :=
  match scalarOneOrNone (repo.existsRows db id include_deleted) with
  | .error e => .error e
  | .ok res => .ok res.isSome

end BaseRepository

/-! Embedding of the HTTP-side components: requests, the project-context
middleware, the project-id dependencies, the database-session dependency,
the repository factory, and the health-check route. -/

/-- The parts of a request the embedded components read: headers, query
parameters (a multi-dict: repeated keys allowed, order kept) and path
parameters. -/
structure Request where
  headers : List (String × String)
  query_params : List (String × String)
  path_params : List (String × String)
deriving DecidableEq, Repr

/-- Embedding of starlette `Headers.get`: the first header with the given
name (starlette scans the header list front to back). -/
def Request.headerGet (req : Request) (name : String) : Option String :=
  req.headers.lookup name

/-- Embedding of starlette `QueryParams.get`: starlette's immutable
multi-dict is built by a dict comprehension over the parameter list, so a
repeated key keeps its last value. -/
def Request.queryGetLast (req : Request) (name : String) : Option String :=
  ((req.query_params.filter (fun kv => kv.1 == name)).map Prod.snd).getLast?

/-- Embedding of starlette `QueryParams.getlist`: all values for the key, in
order. -/
def Request.queryGetList (req : Request) (name : String) : List String :=
  (req.query_params.filter (fun kv => kv.1 == name)).map Prod.snd

/-- Embedding of `path_params.get`. -/
def Request.pathGet (req : Request) (name : String) : Option String :=
  req.path_params.lookup name

/-- Python truthiness of an optional string (`if x_project_id:`): an absent
or empty string is falsy. -/
def truthy : Option String → Option String
  | some s => if s == "" then none else some s
  | none => none

/-- Value of one hexadecimal digit, if the character is one. -/
def hexDigitVal (c : Char) : Option Nat :=
  if c.isDigit then some (c.toNat - 48)
  else if 97 ≤ c.toNat ∧ c.toNat ≤ 102 then some (c.toNat - 87)
  else if 65 ≤ c.toNat ∧ c.toNat ≤ 70 then some (c.toNat - 55)
  else none

/-- Fold a list of hexadecimal digits into a number; `none` on any
non-hex character. -/
def parseHexChars : List Char → Nat → Option Nat
  | [], acc => some acc
  | c :: rest, acc =>
      match hexDigitVal c with
      | some d => parseHexChars rest (acc * 16 + d)
      | none => none

/-- Python `str.strip()`: leading and trailing whitespace removed. -/
def stripWhitespace (cs : List Char) : List Char :=
  ((cs.dropWhile Char.isWhitespace).reverse.dropWhile Char.isWhitespace).reverse

/-- Python `str.strip` for a set of characters: leading and trailing
characters satisfying the predicate removed. -/
def stripChars (isStripped : Char → Bool) (cs : List Char) : List Char :=
  ((cs.dropWhile isStripped).reverse.dropWhile isStripped).reverse

/-- Python `str.replace(pat, "")` on character lists, leftmost first, with
an explicit fuel argument to keep the recursion structural; the fuel is
instantiated with the list length, which suffices since every step consumes
at least one character. -/
def removeAllAux (pat : List Char) : Nat → List Char → List Char
  | _, [] => []
  | 0, cs => cs
  | fuel + 1, c :: rest =>
      if pat.isPrefixOf (c :: rest) then removeAllAux pat fuel ((c :: rest).drop pat.length)
      else c :: removeAllAux pat fuel rest

/-- Python `str.replace(pat, "")` (every occurrence removed). -/
def removeAll (pat cs : List Char) : List Char :=
  removeAllAux pat cs.length cs

/-- Embedding of CPython `uuid.UUID(hex)` string parsing: strip whitespace,
drop `urn:` and `uuid:` occurrences, strip surrounding braces, remove
hyphens, then require exactly 32 hexadecimal digits (a value below 2^128
follows).  The exotic `int(s, 16)` quirks (embedded underscores, signs,
inner whitespace) are not modelled; on plain inputs the behaviours agree. -/
def pyUUID (s : String) : Option Nat :=
  let h := stripWhitespace s.data
  let h := removeAll "urn:".data h
  let h := removeAll "uuid:".data h
  let h := stripChars (fun c => c == '\x7b' || c == '\x7d') h
  let h := h.filter (fun c => c ≠ '-')
  if h.length == 32 then parseHexChars h 0 else none

/-- Embedding of `app.deps.context.ProjectContext` (re-exported by
`app.deps.project`). -/
structure ProjectContext where
  project_id : Nat
  user_id : Option Nat
  organization_id : Option Nat
deriving DecidableEq, Repr

/-- Embedding of `ProjectContextMiddleware.dispatch`.  The sequential
`if not project_id` guards of the source mean each later source is consulted
only while no identifier has been found, which the nested matches render
directly.  The result is the stored `request.state.project_context`
(`none` when the middleware leaves the state unset and forwards the request
unchanged), or the raised 400 `HTTPException`. -/
def dispatch (req : Request) : Except PyExc (Option ProjectContext) :=
  match truthy (req.headerGet "X-Project-ID") with
  | some s =>
      (match pyUUID s with
       | some u => .ok (some (ProjectContext.mk u none none))
       | none => .error (.httpError 400 ("Invalid project ID format in header: " ++ s)))
  | none =>
      match truthy (req.queryGetLast "project_id") with
      | some s =>
          (match pyUUID s with
           | some u => .ok (some (ProjectContext.mk u none none))
           | none => .error (.httpError 400 ("Invalid project ID format in query: " ++ s)))
      | none =>
          if (req.path_params.lookup "project_id").isSome then
            match truthy (req.pathGet "project_id") with
            | some s =>
                (match pyUUID s with
                 | some u => .ok (some (ProjectContext.mk u none none))
                 | none => .error (.httpError 400 ("Invalid project ID format in path: " ++ s)))
            | none => .ok none
          else .ok none

/-- The first available project identifier in the middleware's source
order: the X-Project-ID header when supplied and nonempty, else the
project_id query parameter as the middleware reads it (the last occurrence,
by the multi-dict semantics), else the project_id path parameter when the
key is present and its value nonempty. -/
def firstAvailable (req : Request) : Option String :=
  match truthy (req.headerGet "X-Project-ID") with
  | some s => some s
  | none =>
      match truthy (req.queryGetLast "project_id") with
      | some s => some s
      | none =>
          if (req.path_params.lookup "project_id").isSome then
            truthy (req.pathGet "project_id")
          else none

/-- Modelled from the spec: the first value supplied for the project
identifier, reading the claim literally — the header value when one is
supplied, else the first occurrence of the project_id query parameter,
else the path parameter. -/
def firstSupplied (req : Request) : Option String :=
  match req.headerGet "X-Project-ID" with
  | some s => some s
  | none =>
      match (req.queryGetList "project_id").head? with
      | some s => some s
      | none => req.pathGet "project_id"

/-- Embedding of `get_project_id_from_header`: 400 when the header is
absent or empty, 400 on an invalid UUID, the parsed UUID otherwise. -/
def get_project_id_from_header (x_project_id : Option String) : Except PyExc Nat :=
  match truthy x_project_id with
  | none => .error (.httpError 400 "X-Project-ID header is required")
  | some s =>
      match pyUUID s with
      | some u => .ok u
      | none => .error (.httpError 400 ("Invalid project ID format: " ++ s))

/-- Embedding of `get_project_id_from_query`: `getlist` then the first
value; 400 when there is none or it is empty, 400 on an invalid UUID. -/
def get_project_id_from_query (req : Request) : Except PyExc Nat :=
  match req.queryGetList "project_id" with
  | [] => .error (.httpError 400 "project_id query parameter is required")
  | raw :: _ =>
      if raw == "" then .error (.httpError 400 "project_id query parameter is required")
      else
        match pyUUID raw with
        | some u => .ok u
        | none => .error (.httpError 400 ("Invalid project ID format: " ++ raw))

/-- Embedding of `get_project_id_from_path`: parse, 400 on an invalid
UUID. -/
def get_project_id_from_path (project_id : String) : Except PyExc Nat :=
  match pyUUID project_id with
  | some u => .ok u
  | none => .error (.httpError 400 ("Invalid project ID format: " ++ project_id))

/-- The session bookkeeping `_get_db_session_context` performs around the
request body: commit on success, rollback on an exception, close always. -/
structure SessionLog where
  committed : Bool
  rolledBack : Bool
  closed : Bool
deriving DecidableEq, Repr

/-- Embedding of `app.deps.db._get_db_session_context`, as a transformer on
the outcome of the request body run inside it: a successful body is
committed and passed through; a `SQLAlchemyError` is rolled back and
re-raised as a 500 `HTTPException`; every other exception (the generic
`except Exception` clause) is also rolled back and re-raised as a 500 with
a different detail. The session is closed in all cases. -/
def getDbSessionContext {α : Type} (body : Except PyExc α) :
    Except PyExc α × SessionLog :=
  match body with
  | .ok a => (.ok a, ⟨true, false, true⟩)
  | .error e =>
      if e.isSQLAlchemyError then
        (.error (.httpError 500 "Database operation failed. Please try again later."),
         ⟨false, true, true⟩)
      else
        (.error (.httpError 500 "An unexpected error occurred. Please try again later."),
         ⟨false, true, true⟩)

/-- Embedding of the `factory` closure of
`app.deps.repository.get_repository_factory`, as a transformer on the
outcome of `repository_class(session, context.project_id)`: a `ValueError`
becomes a 500 `HTTPException` naming the failure, any other exception a
generic 500, and a constructed repository passes through. -/
def repositoryFactory (construct : Except PyExc BaseRepository) :
    Except PyExc BaseRepository :=
  match construct with
  | .ok repo => .ok repo
  | .error (.valueError msg) =>
      .error (.httpError 500 ("Failed to initialize repository: " ++ msg))
  | .error _ => .error (.httpError 500 "Failed to create repository instance.")

/-- Embedding of the `/health` route handler of
`app.api.v1.routes_example`: it ignores the injected database session and
returns the literal dictionary. -/
def health_check {σ : Type} (db : σ) : List (String × String) :=
  [("status", "ok")]

/-! Concrete example data used by the witness theorems. -/

/-- A model with soft delete, `created_at`, and a `status` column. -/
def exModelSD : Model := ⟨true, true, ["status"]⟩

/-- A model without soft delete and without `created_at`. -/
def exModelPlain : Model := ⟨false, false, ["status"]⟩

/-- A repository scoped to project 1 over the soft-delete model. -/
def exRepo : BaseRepository := ⟨1, exModelSD⟩

/-- A repository scoped to project 1 over the plain model. -/
def exRepoPlain : BaseRepository := ⟨1, exModelPlain⟩

/-- A live row of project 1. -/
def exRowLive : Row := ⟨10, 1, none, 100, [("status", Val.nat 1)]⟩

/-- A soft-deleted row of project 1. -/
def exRowDeleted : Row := ⟨11, 1, some 50, 90, [("status", Val.nat 2)]⟩

/-- A row of project 2. -/
def exRowOther : Row := ⟨12, 2, none, 80, []⟩

/-- A different row of project 2. -/
def exRowOther2 : Row := ⟨13, 2, some 70, 60, []⟩

/-- An example database containing two project-1 rows and a project-2 row. -/
def exDb : List Row := [exRowLive, exRowDeleted, exRowOther]

/-- A database agreeing with `exDb` on project 1 and differing on
project 2. -/
def exDb2 : List Row := [exRowLive, exRowDeleted, exRowOther2]

/-! General helper lemmas about the embedded query pipelines. -/

/-- The rows of the given project, as a sub-database. -/
def projRows (p : Nat) (db : List Row) : List Row :=
  db.filter (fun r => r.project_id == p)

namespace BaseRepository

theorem enforceProject_eq_projRows (repo : BaseRepository) (db : List Row) :
    repo.enforceProject db = projRows repo.project_id db := rfl

theorem enforceProject_filter_eq (repo : BaseRepository) (c : Row → Bool)
    {db₁ db₂ : List Row}
    (h : projRows repo.project_id db₁ = projRows repo.project_id db₂) :
    repo.enforceProject (db₁.filter c) = repo.enforceProject (db₂.filter c) := by
  unfold BaseRepository.enforceProject
  unfold projRows at h
  rw [List.filter_comm _ c db₁, List.filter_comm _ c db₂, h]

theorem getByIdRows_eq_of_projRows_eq (repo : BaseRepository) {db₁ db₂ : List Row}
    (h : projRows repo.project_id db₁ = projRows repo.project_id db₂)
    (id : Nat) (incl : Bool) :
    repo.getByIdRows db₁ id incl = repo.getByIdRows db₂ id incl := by
  simp only [BaseRepository.getByIdRows]
  rw [enforceProject_filter_eq repo (fun r => r.id == id) h]

theorem listRows_eq_of_projRows_eq (repo : BaseRepository) {db₁ db₂ : List Row}
    (h : projRows repo.project_id db₁ = projRows repo.project_id db₂)
    (incl : Bool) (filters : List (String × Val)) :
    repo.listRows db₁ incl filters = repo.listRows db₂ incl filters := by
  simp only [BaseRepository.listRows]
  rw [enforceProject_eq_projRows, enforceProject_eq_projRows, h]

theorem existsRows_eq_of_projRows_eq (repo : BaseRepository) {db₁ db₂ : List Row}
    (h : projRows repo.project_id db₁ = projRows repo.project_id db₂)
    (id : Nat) (incl : Bool) :
    repo.existsRows db₁ id incl = repo.existsRows db₂ id incl := by
  simp only [BaseRepository.existsRows]
  rw [enforceProject_filter_eq repo (fun r => r.id == id) h]

theorem applyFilters_eq_filter (m : Model) (fs : List (String × Val)) (q : List Row) :
    applyFilters m fs q =
      q.filter (fun r =>
        fs.all (fun kv => !m.hasAttr kv.1 || sqlEqVal (r.getCol kv.1) kv.2)) := by
  induction fs generalizing q with
  | nil => simp [applyFilters]
  | cons kv rest ih =>
      simp only [applyFilters]
      cases hA : m.hasAttr kv.1 with
      | true =>
          rw [if_pos rfl, ih, List.filter_filter]
          apply List.filter_congr
          intro r _
          simp [hA, Bool.and_comm]
      | false =>
          rw [if_neg (by simp), ih]
          apply List.filter_congr
          intro r _
          simp [hA]

theorem applyFilters_filter (m : Model) (fs : List (String × Val)) (c : Row → Bool)
    (q : List Row) :
    applyFilters m fs (q.filter c) = (applyFilters m fs q).filter c := by
  rw [applyFilters_eq_filter, applyFilters_eq_filter, List.filter_comm]

theorem applyFilters_of_all_unknown (m : Model) {fs : List (String × Val)}
    (h : ∀ kv ∈ fs, m.hasAttr kv.1 = false) (q : List Row) :
    applyFilters m fs q = q := by
  induction fs with
  | nil => rfl
  | cons kv rest ih =>
      simp only [applyFilters]
      rw [if_neg (by simp [h kv (by simp)])]
      exact ih (fun kv2 hkv2 => h kv2 (by simp [hkv2]))

theorem mem_insertLe {le : Row → Row → Bool} {x y : Row} {l : List Row} :
    y ∈ insertLe le x l ↔ y = x ∨ y ∈ l := by
  induction l with
  | nil => simp [insertLe]
  | cons z zs ih =>
      simp only [insertLe]
      cases hle : le x z with
      | true =>
          rw [if_pos rfl]
          simp [List.mem_cons]
      | false =>
          rw [if_neg (by decide)]
          simp only [List.mem_cons, ih]
          tauto

theorem mem_sortLe {le : Row → Row → Bool} {l : List Row} {y : Row} :
    y ∈ sortLe le l ↔ y ∈ l := by
  induction l with
  | nil => simp [sortLe]
  | cons z zs ih => simp [sortLe, mem_insertLe, ih]

theorem scalarOneOrNone_ok_some {α : Type} {l : List α} {a : α}
    (h : scalarOneOrNone l = .ok (some a)) : l = [a] := by
  match l with
  | [] => simp [scalarOneOrNone] at h
  | [b] =>
      simp only [scalarOneOrNone, Except.ok.injEq, Option.some.injEq] at h
      rw [h]
  | b :: c :: rest => simp [scalarOneOrNone] at h

theorem mem_of_mem_list {repo : BaseRepository} {db : List Row}
    {skip limit : Nat} {incl : Bool} {ob : Option (Row → Row → Bool)}
    {fs : List (String × Val)} {r : Row}
    (h : r ∈ repo.list db skip limit incl ob fs) : r ∈ repo.listRows db incl fs := by
  simp only [BaseRepository.list] at h
  have h2 := List.drop_subset _ _ (List.take_subset _ _ h)
  cases ob with
  | some le => exact mem_sortLe.mp h2
  | none =>
      by_cases hc : repo.model.hasCreatedAt = true
      · rw [if_pos hc] at h2
        exact mem_sortLe.mp h2
      · rwa [if_neg hc] at h2

theorem applySoftDeleteFilter_of_not_soft {repo : BaseRepository}
    (h : repo.model.hasSoftDelete = false) (q : List Row) :
    repo.applySoftDeleteFilter q = q := by
  simp [BaseRepository.applySoftDeleteFilter, h]

theorem applySoftDeleteFilter_of_soft {repo : BaseRepository}
    (h : repo.model.hasSoftDelete = true) (q : List Row) :
    repo.applySoftDeleteFilter q = q.filter (fun r => r.deleted_at == none) := by
  simp [BaseRepository.applySoftDeleteFilter, h]

theorem listRows_false_eq_restricted {repo : BaseRepository}
    (hSD : repo.model.hasSoftDelete = true) (db : List Row)
    (fs : List (String × Val)) :
    repo.listRows db false fs =
      repo.listRows (db.filter (fun r => r.deleted_at == none)) true fs := by
  simp only [BaseRepository.listRows, Bool.false_eq_true, if_false, if_true,
    applySoftDeleteFilter_of_soft hSD, BaseRepository.enforceProject,
    applyFilters_eq_filter, List.filter_filter]
  apply List.filter_congr
  intro r _
  cases hx : (r.deleted_at == none) <;>
    cases hy : (r.project_id == repo.project_id) <;>
    cases hz : fs.all (fun kv => !repo.model.hasAttr kv.1 ||
      sqlEqVal (r.getCol kv.1) kv.2) <;> simp [hx, hy, hz]

theorem getByIdRows_false_eq_restricted {repo : BaseRepository}
    (hSD : repo.model.hasSoftDelete = true) (db : List Row) (id : Nat) :
    repo.getByIdRows db id false =
      repo.getByIdRows (db.filter (fun r => r.deleted_at == none)) id true := by
  simp only [BaseRepository.getByIdRows, Bool.false_eq_true, if_false, if_true,
    applySoftDeleteFilter_of_soft hSD, BaseRepository.enforceProject,
    List.filter_filter]
  apply List.filter_congr
  intro r _
  cases hx : (r.deleted_at == none) <;>
    cases hy : (r.project_id == repo.project_id) <;>
    cases hz : (r.id == id) <;> simp [hx, hy, hz]

theorem existsRows_false_eq_restricted {repo : BaseRepository}
    (hSD : repo.model.hasSoftDelete = true) (db : List Row) (id : Nat) :
    repo.existsRows db id false =
      repo.existsRows (db.filter (fun r => r.deleted_at == none)) id true := by
  simp only [BaseRepository.existsRows, Bool.false_eq_true, if_false, if_true,
    applySoftDeleteFilter_of_soft hSD, BaseRepository.enforceProject,
    List.filter_filter]
  congr 1
  apply List.filter_congr
  intro r _
  cases hx : (r.deleted_at == none) <;>
    cases hy : (r.project_id == repo.project_id) <;>
    cases hz : (r.id == id) <;> simp [hx, hy, hz]

end BaseRepository

/-! Helper lemmas about data dictionaries and row updates. -/

theorem setCol_project_id (r : Row) (k : String) (v : Val) (h : k ≠ "project_id") :
    (r.setCol k v).project_id = r.project_id := by
  simp only [Row.setCol]
  split
  · rfl
  · split
    · rename_i hk
      exact absurd (by simpa using hk) h
    · split
      · rfl
      · split
        · rfl
        · rfl

theorem setCol_project_id_set (r : Row) (p : Nat) :
    (r.setCol "project_id" (Val.nat p)).project_id = p := rfl

theorem applyData_project_id {data : List (String × Val)} (r : Row)
    (h : ∀ kv ∈ data, kv.1 ≠ "project_id") :
    (applyData data r).project_id = r.project_id := by
  induction data generalizing r with
  | nil => rfl
  | cons kv rest ih =>
      simp only [applyData]
      rw [ih _ (fun kv2 hkv2 => h kv2 (by simp [hkv2]))]
      exact setCol_project_id r kv.1 kv.2 (h kv (by simp))

theorem applyData_append (xs ys : List (String × Val)) (r : Row) :
    applyData (xs ++ ys) r = applyData ys (applyData xs r) := by
  induction xs generalizing r with
  | nil => rfl
  | cons kv rest ih =>
      simp only [List.cons_append, applyData]
      exact ih _

theorem lookup_eq_none_keys {β : Type} {l : List (String × β)} {a : String}
    (h : List.lookup a l = none) : ∀ kv ∈ l, kv.1 ≠ a := by
  induction l with
  | nil => simp
  | cons kv rest ih =>
      obtain ⟨k, b⟩ := kv
      intro kv2 hkv2
      rw [List.lookup] at h
      cases hk : (a == k) with
      | true =>
          rw [hk] at h
          simp at h
      | false =>
          rw [hk] at h
          simp only [] at h
          rcases List.mem_cons.mp hkv2 with h1 | h1
          · rw [h1]
            intro hc
            rw [show k = a from hc] at hk
            simp at hk
          · exact ih h kv2 h1

theorem applyData_lookup_project_id {data : List (String × Val)} (r : Row) {p : Nat}
    (hnd : (data.map Prod.fst).Nodup)
    (h : List.lookup "project_id" data = some (Val.nat p)) :
    (applyData data r).project_id = p := by
  induction data generalizing r with
  | nil => cases h
  | cons kv rest ih =>
      obtain ⟨k, b⟩ := kv
      simp only [List.map_cons, List.nodup_cons] at hnd
      rw [List.lookup] at h
      cases hk : ("project_id" == k) with
      | true =>
          rw [hk] at h
          simp only [Option.some.injEq] at h
          have hkeq : k = "project_id" := (beq_iff_eq.mp hk).symm
          simp only [applyData]
          have hrest : ∀ kv2 ∈ rest, kv2.1 ≠ "project_id" := by
            intro kv2 hkv2 hc
            apply hnd.1
            rw [hkeq, ← hc]
            exact List.mem_map_of_mem Prod.fst hkv2
          rw [applyData_project_id _ hrest]
          show (r.setCol k b).project_id = p
          rw [hkeq, h]
          exact setCol_project_id_set r p
      | false =>
          rw [hk] at h
          simp only [] at h
          simp only [applyData]
          exact ih (r.setCol k b) hnd.2 h

theorem lookup_filter_ne_none {β : Type} (l : List (String × β)) (a : String) :
    List.lookup a (l.filter (fun kv => kv.1 ≠ a)) = none := by
  induction l with
  | nil => rfl
  | cons kv rest ih =>
      obtain ⟨k, b⟩ := kv
      by_cases hk : k = a
      · simp only [List.filter_cons]
        rw [if_neg (by simp [hk])]
        exact ih
      · simp only [List.filter_cons]
        rw [if_pos (by simp [hk])]
        rw [List.lookup]
        have : (a == k) = false := by
          simp
          intro hc
          exact hk hc.symm
        rw [this]
        exact ih

theorem mem_id_unique {db : List Row} (h : (db.map Row.id).Nodup) :
    ∀ r ∈ db, ∀ r2 ∈ db, r.id = r2.id → r = r2 := by
  induction db with
  | nil => simp
  | cons x xs ih =>
      simp only [List.map_cons, List.nodup_cons] at h
      intro r hr r2 hr2 hid
      rcases List.mem_cons.mp hr with h1 | h1 <;> rcases List.mem_cons.mp hr2 with h2 | h2
      · rw [h1, h2]
      · exfalso
        apply h.1
        rw [h1] at hid
        rw [hid]
        exact List.mem_map_of_mem Row.id h2
      · exfalso
        apply h.1
        rw [h2] at hid
        rw [← hid]
        exact List.mem_map_of_mem Row.id h1
      · exact ih h.2 r h1 r2 h2 hid

theorem updateApply_ok {repo : BaseRepository} {db : List Row} {id : Nat}
    {data : List (String × Val)} {res : Option Row} {db' : List Row}
    (h : repo.updateApply db id data = .ok (res, db')) :
    db' = db.map (fun r => if repo.updMatch id r then applyData data r else r) := by
  simp only [BaseRepository.updateApply] at h
  cases hs : scalarOneOrNone ((db.filter (repo.updMatch id)).map (applyData data)) with
  | error e =>
      rw [hs] at h
      cases h
  | ok v =>
      rw [hs] at h
      simp only [Except.ok.injEq, Prod.mk.injEq] at h
      exact h.2.symm

theorem updateApply_no_match {repo : BaseRepository} {db : List Row} {id : Nat}
    (data : List (String × Val)) (hno : ∀ r ∈ db, repo.updMatch id r = false) :
    repo.updateApply db id data = .ok (none, db) := by
  have hfil : db.filter (repo.updMatch id) = [] := by
    rw [List.filter_eq_nil_iff]
    intro a ha
    simp [hno a ha]
  have hmap : db.map (fun r => if repo.updMatch id r then applyData data r else r) = db := by
    conv_rhs => rw [← List.map_id db]
    apply List.map_congr_left
    intro r hr
    simp [hno r hr]
  simp only [BaseRepository.updateApply, hfil, List.map_nil, scalarOneOrNone, hmap]

theorem delMatch_id {repo : BaseRepository} {id : Nat} {r : Row}
    (h : repo.delMatch id r = true) : r.id = id := by
  have := (Bool.and_eq_true _ _).mp h
  simpa using this.1

theorem filter_delMatch_single {repo : BaseRepository} {db : List Row} {id : Nat}
    (hnd : (db.map Row.id).Nodup) {r : Row} (hr : r ∈ db)
    (hm : repo.delMatch id r = true) :
    db.filter (repo.delMatch id) = [r] := by
  induction db with
  | nil => cases hr
  | cons x xs ih =>
      simp only [List.map_cons, List.nodup_cons] at hnd
      rcases List.mem_cons.mp hr with h1 | h1
      · subst h1
        rw [List.filter_cons_of_pos hm]
        have hxs : xs.filter (repo.delMatch id) = [] := by
          rw [List.filter_eq_nil_iff]
          intro a ha hma
          apply hnd.1
          rw [delMatch_id hm, ← delMatch_id hma]
          exact List.mem_map_of_mem Row.id ha
        rw [hxs]
      · have hx : ¬ repo.delMatch id x = true := by
          intro hmx
          apply hnd.1
          have : x.id = r.id := by rw [delMatch_id hmx, delMatch_id hm]
          rw [this]
          exact List.mem_map_of_mem Row.id h1
        rw [List.filter_cons_of_neg hx]
        exact ih hnd.2 h1

/-- Exhaustive case analysis of the middleware dispatch against the
first-available identifier. -/
theorem dispatch_cases (req : Request) :
    (firstAvailable req = none ∧ dispatch req = .ok none) ∨
    (∃ s u, firstAvailable req = some s ∧ pyUUID s = some u ∧
      dispatch req = .ok (some (ProjectContext.mk u none none))) ∨
    (∃ s d, firstAvailable req = some s ∧ pyUUID s = none ∧
      dispatch req = .error (.httpError 400 d)) := by
  cases h1 : truthy (req.headerGet "X-Project-ID") with
  | some s1 =>
      cases hu : pyUUID s1 with
      | some u =>
          refine Or.inr (Or.inl ⟨s1, u, ?_, hu, ?_⟩)
          · simp [firstAvailable, h1]
          · simp [dispatch, h1, hu]
      | none =>
          refine Or.inr (Or.inr ⟨s1,
            "Invalid project ID format in header: " ++ s1, ?_, hu, ?_⟩)
          · simp [firstAvailable, h1]
          · simp [dispatch, h1, hu]
  | none =>
      cases h2 : truthy (req.queryGetLast "project_id") with
      | some s2 =>
          cases hu : pyUUID s2 with
          | some u =>
              refine Or.inr (Or.inl ⟨s2, u, ?_, hu, ?_⟩)
              · simp [firstAvailable, h1, h2]
              · simp [dispatch, h1, h2, hu]
          | none =>
              refine Or.inr (Or.inr ⟨s2,
                "Invalid project ID format in query: " ++ s2, ?_, hu, ?_⟩)
              · simp [firstAvailable, h1, h2]
              · simp [dispatch, h1, h2, hu]
      | none =>
          cases h3 : (req.path_params.lookup "project_id").isSome with
          | true =>
              cases h4 : truthy (req.pathGet "project_id") with
              | some s3 =>
                  cases hu : pyUUID s3 with
                  | some u =>
                      refine Or.inr (Or.inl ⟨s3, u, ?_, hu, ?_⟩)
                      · simp [firstAvailable, h1, h2, h3, h4]
                      · simp [dispatch, h1, h2, h3, h4, hu]
                  | none =>
                      refine Or.inr (Or.inr ⟨s3,
                        "Invalid project ID format in path: " ++ s3, ?_, hu, ?_⟩)
                      · simp [firstAvailable, h1, h2, h3, h4]
                      · simp [dispatch, h1, h2, h3, h4, hu]
              | none =>
                  refine Or.inl ⟨?_, ?_⟩
                  · simp [firstAvailable, h1, h2, h3, h4]
                  · simp [dispatch, h1, h2, h3, h4]
          | false =>
              refine Or.inl ⟨?_, ?_⟩
              · simp [firstAvailable, h1, h2, h3]
              · simp [dispatch, h1, h2, h3]

/-! Claim theorems. -/

/-- C1: tenant isolation of reads (noninterference).  For a repository
scoped to project `p`, each read operation (`get_by_id`, `list`, `count`,
`exists`) returns the same result on any two databases that agree on the
rows with `project_id = p`, however the rows of other projects differ, so
the reads depend only on the tenant's own rows and never leak other
tenants' data. -/
theorem reads_noninterference (repo : BaseRepository) (db₁ db₂ : List Row)
    (h : projRows repo.project_id db₁ = projRows repo.project_id db₂) :
    (∀ id incl, repo.get_by_id db₁ id incl = repo.get_by_id db₂ id incl) ∧
    (∀ skip limit incl order_by filters,
        repo.list db₁ skip limit incl order_by filters =
        repo.list db₂ skip limit incl order_by filters) ∧
    (∀ incl filters, repo.count db₁ incl filters = repo.count db₂ incl filters) ∧
    (∀ id incl, repo.existsRecord db₁ id incl = repo.existsRecord db₂ id incl) := by
  refine ⟨?_, ?_, ?_, ?_⟩
  · intro id incl
    simp only [BaseRepository.get_by_id]
    rw [BaseRepository.getByIdRows_eq_of_projRows_eq repo h]
  · intro skip limit incl order_by filters
    simp only [BaseRepository.list]
    rw [BaseRepository.listRows_eq_of_projRows_eq repo h]
  · intro incl filters
    simp only [BaseRepository.count]
    rw [BaseRepository.listRows_eq_of_projRows_eq repo h]
  · intro id incl
    simp only [BaseRepository.existsRecord]
    rw [BaseRepository.existsRows_eq_of_projRows_eq repo h]

/-- Witness for C1 at concrete data: two databases that agree on project 1
and differ on project 2 give the same reads for the project-1 repository. -/
theorem reads_noninterference_witness :
    projRows 1 exDb = projRows 1 exDb2 ∧ exDb ≠ exDb2 ∧
    BaseRepository.get_by_id exRepo exDb 11 true =
      BaseRepository.get_by_id exRepo exDb2 11 true ∧
    BaseRepository.count exRepo exDb true [] =
      BaseRepository.count exRepo exDb2 true [] := by
  refine ⟨by decide, by decide, ?_, ?_⟩
  · exact (reads_noninterference exRepo exDb exDb2 (by decide)).1 11 true
  · exact (reads_noninterference exRepo exDb exDb2 (by decide)).2.2.1 true []

/-- C7: a GET request to the /health route always returns the dictionary
mapping "status" to "ok", independent of the database session it
receives. -/
theorem health_check_returns_ok {σ : Type} (db : σ) :
    health_check db = [("status", "ok")] := rfl

/-- C3: soft-delete semantics.  For a model with a `deleted_at` field,
`get_by_id`/`list` with `include_deleted = false` return only rows whose
`deleted_at` is NULL, and `count`/`exists` with `include_deleted = false`
give exactly the result of the `include_deleted = true` run on the
database restricted to its non-deleted rows; with `include_deleted = true`
the query keeps every matching row, soft-deleted rows included.  For a
model without a `deleted_at` field, the flag has no effect on any of the
four read operations. -/
theorem soft_delete_semantics (repo : BaseRepository) (db : List Row) :
    (repo.model.hasSoftDelete = true →
      (∀ id r, repo.get_by_id db id false = .ok (some r) → r.deleted_at = none) ∧
      (∀ skip limit ob fs r, r ∈ repo.list db skip limit false ob fs →
        r.deleted_at = none) ∧
      (∀ fs, repo.count db false fs =
        repo.count (db.filter (fun r => r.deleted_at == none)) true fs) ∧
      (∀ id, repo.existsRecord db id false =
        repo.existsRecord (db.filter (fun r => r.deleted_at == none)) id true) ∧
      (∀ id r, r ∈ repo.getByIdRows db id true ↔
        (r ∈ db ∧ r.id = id ∧ r.project_id = repo.project_id)) ∧
      (∀ fs r, r ∈ repo.listRows db true fs ↔
        (r ∈ db ∧ r.project_id = repo.project_id ∧
          fs.all (fun kv => !repo.model.hasAttr kv.1 ||
            sqlEqVal (r.getCol kv.1) kv.2) = true))) ∧
    (repo.model.hasSoftDelete = false →
      (∀ id i₁ i₂, repo.get_by_id db id i₁ = repo.get_by_id db id i₂) ∧
      (∀ skip limit ob fs i₁ i₂,
        repo.list db skip limit i₁ ob fs = repo.list db skip limit i₂ ob fs) ∧
      (∀ fs i₁ i₂, repo.count db i₁ fs = repo.count db i₂ fs) ∧
      (∀ id i₁ i₂, repo.existsRecord db id i₁ = repo.existsRecord db id i₂)) := by
  constructor
  · intro hSD
    refine ⟨?_, ?_, ?_, ?_, ?_, ?_⟩
    · intro id r h
      have hrows := BaseRepository.scalarOneOrNone_ok_some h
      have hmem : r ∈ repo.getByIdRows db id false := by rw [hrows]; simp
      simp only [BaseRepository.getByIdRows, Bool.false_eq_true, if_false,
        BaseRepository.applySoftDeleteFilter_of_soft hSD] at hmem
      have := (List.mem_filter.mp hmem).2
      simpa using this
    · intro skip limit ob fs r h
      have hmem := BaseRepository.mem_of_mem_list h
      simp only [BaseRepository.listRows, Bool.false_eq_true, if_false,
        BaseRepository.applySoftDeleteFilter_of_soft hSD] at hmem
      have := (List.mem_filter.mp hmem).2
      simpa using this
    · intro fs
      simp only [BaseRepository.count]
      rw [BaseRepository.listRows_false_eq_restricted hSD]
    · intro id
      simp only [BaseRepository.existsRecord]
      rw [BaseRepository.existsRows_false_eq_restricted hSD]
    · intro id r
      simp only [BaseRepository.getByIdRows, if_true, BaseRepository.enforceProject,
        List.mem_filter]
      constructor
      · rintro ⟨⟨hdb, hid⟩, hpm⟩
        exact ⟨hdb, by simpa using hid, by simpa using hpm⟩
      · rintro ⟨hdb, hid, hpm⟩
        exact ⟨⟨hdb, by simpa using hid⟩, by simpa using hpm⟩
    · intro fs r
      simp only [BaseRepository.listRows, if_true,
        BaseRepository.applyFilters_eq_filter, BaseRepository.enforceProject,
        List.mem_filter]
      constructor
      · rintro ⟨⟨hdb, hpm⟩, hall⟩
        exact ⟨hdb, by simpa using hpm, hall⟩
      · rintro ⟨hdb, hpm, hall⟩
        exact ⟨⟨hdb, by simpa using hpm⟩, hall⟩
  · intro hSD
    refine ⟨?_, ?_, ?_, ?_⟩
    · intro id i₁ i₂
      simp only [BaseRepository.get_by_id, BaseRepository.getByIdRows,
        BaseRepository.applySoftDeleteFilter_of_not_soft hSD, ite_self]
    · intro skip limit ob fs i₁ i₂
      simp only [BaseRepository.list, BaseRepository.listRows,
        BaseRepository.applySoftDeleteFilter_of_not_soft hSD, ite_self]
    · intro fs i₁ i₂
      simp only [BaseRepository.count, BaseRepository.listRows,
        BaseRepository.applySoftDeleteFilter_of_not_soft hSD, ite_self]
    · intro id i₁ i₂
      simp only [BaseRepository.existsRecord, BaseRepository.existsRows,
        BaseRepository.applySoftDeleteFilter_of_not_soft hSD, ite_self]

/-- Witness for C3 at concrete data: the soft-delete model hides the
soft-deleted row from `count` with `include_deleted = false`, and the flag
has no effect for the model without `deleted_at`. -/
theorem soft_delete_semantics_witness :
    (BaseRepository.count exRepo exDb false [] =
      BaseRepository.count exRepo (exDb.filter (fun r => r.deleted_at == none)) true []) ∧
    (BaseRepository.count exRepoPlain exDb false [] =
      BaseRepository.count exRepoPlain exDb true []) := by
  constructor
  · exact ((soft_delete_semantics exRepo exDb).1 rfl).2.2.1 []
  · exact ((soft_delete_semantics exRepoPlain exDb).2 rfl).2.2.1 [] false true

/-- C2: safe create.  With the unique-key guarantee of Python keyword
arguments, `create` raises `ValueError` when the data carries a
`project_id` different from the repository's — producing no row — and
otherwise creates exactly one record, appended to the database, whose
`project_id` equals the repository's project (injected when the data omits
it), so a caller can never create a row in another tenant's project. -/
theorem create_enforces_project (repo : BaseRepository) (db : List Row)
    (freshId now : Nat) (data : List (String × Val))
    (hnd : (data.map Prod.fst).Nodup) :
    (∀ v, List.lookup "project_id" data = some v → v ≠ Val.nat repo.project_id →
      ∃ msg, repo.create db freshId now data = .error (.valueError msg)) ∧
    (List.lookup "project_id" data = none ∨
        List.lookup "project_id" data = some (Val.nat repo.project_id) →
      ∃ r, repo.create db freshId now data = .ok (r, db ++ [r]) ∧
        r.project_id = repo.project_id) := by
  constructor
  · intro v hv hne
    refine ⟨"Cannot set project_id to " ++ reprStr v ++
      ". This repository is scoped to project " ++ toString repo.project_id, ?_⟩
    simp only [BaseRepository.create, BaseRepository.checkProjectId, hv]
    rw [if_pos hne]
  · intro hcase
    rcases hcase with hnone | hsome
    · refine ⟨applyData (data ++ [("project_id", Val.nat repo.project_id)])
        ⟨freshId, 0, none, now, []⟩, ?_, ?_⟩
      · simp only [BaseRepository.create, BaseRepository.checkProjectId, hnone]
      · rw [applyData_append]
        exact setCol_project_id_set _ _
    · refine ⟨applyData data ⟨freshId, 0, none, now, []⟩, ?_, ?_⟩
      · simp only [BaseRepository.create, BaseRepository.checkProjectId, hsome]
        rw [if_neg (by simp)]
      · exact applyData_lookup_project_id _ hnd hsome

/-- Witness for C2 at concrete data: a mismatched `project_id` is rejected,
and a create without `project_id` lands in the repository's project. -/
theorem create_enforces_project_witness :
    (∃ msg, BaseRepository.create exRepo exDb 20 150 [("project_id", Val.nat 2)] =
      .error (.valueError msg)) ∧
    (∃ r, BaseRepository.create exRepo exDb 20 150 [("status", Val.nat 5)] =
      .ok (r, exDb ++ [r]) ∧ r.project_id = exRepo.project_id) := by
  constructor
  · exact (create_enforces_project exRepo exDb 20 150 [("project_id", Val.nat 2)]
      (by decide)).1 (Val.nat 2) rfl (by decide)
  · exact (create_enforces_project exRepo exDb 20 150 [("status", Val.nat 5)]
      (by decide)).2 (Or.inl rfl)

/-- The project column and the row count are unchanged by a successful
UPDATE whose payload contains no `project_id` key. -/
theorem updateApply_project_map {repo : BaseRepository} {db : List Row} {id : Nat}
    {data : List (String × Val)} {res : Option Row} {db' : List Row}
    (hkeys : ∀ kv ∈ data, kv.1 ≠ "project_id")
    (h : repo.updateApply db id data = .ok (res, db')) :
    db'.map Row.project_id = db.map Row.project_id ∧ db'.length = db.length := by
  have hdb' := updateApply_ok h
  subst hdb'
  constructor
  · rw [List.map_map]
    apply List.map_congr_left
    intro r hr
    simp only [Function.comp_apply]
    by_cases hm : repo.updMatch id r = true
    · rw [if_pos hm]
      exact applyData_project_id r hkeys
    · rw [if_neg hm]
  · simp

/-- C8: update frame and atomicity.  `update` never changes the
`project_id` column of any row: a payload `project_id` equal to the
repository's is dropped before the write, a different one raises
`ValueError` with nothing written, and every successful update leaves the
`project_id` column (and the row count) of the whole database unchanged.
When no row matches the id within the project — soft-deleted rows count as
non-matching for soft-delete models, by `updMatch` — the update returns
`None` and leaves the database unchanged (or, with a mismatched payload
`project_id`, raises before writing). -/
theorem update_frame_and_atomicity (repo : BaseRepository) (db : List Row)
    (id : Nat) (data : List (String × Val)) :
    (∀ v, List.lookup "project_id" data = some v → v ≠ Val.nat repo.project_id →
      ∃ msg, repo.update db id data = .error (.valueError msg)) ∧
    (List.lookup "project_id" data = some (Val.nat repo.project_id) →
      repo.update db id data =
        repo.update db id (data.filter (fun kv => kv.1 ≠ "project_id"))) ∧
    (∀ res db', repo.update db id data = .ok (res, db') →
      db'.map Row.project_id = db.map Row.project_id ∧ db'.length = db.length) ∧
    ((∀ r ∈ db, repo.updMatch id r = false) →
      repo.update db id data = .ok (none, db) ∨
      ∃ msg, repo.update db id data = .error (.valueError msg)) := by
  refine ⟨?_, ?_, ?_, ?_⟩
  · intro v hv hne
    refine ⟨"Cannot change project_id. Record belongs to project " ++
      toString repo.project_id, ?_⟩
    simp only [BaseRepository.update, hv]
    rw [if_pos hne]
  · intro hsome
    have hfil := lookup_filter_ne_none data "project_id"
    simp only [BaseRepository.update, hsome, hfil]
    rw [if_neg (by simp)]
  · intro res db' h
    cases hkup : List.lookup "project_id" data with
    | none =>
        simp only [BaseRepository.update, hkup] at h
        exact updateApply_project_map (lookup_eq_none_keys hkup) h
    | some v =>
        simp only [BaseRepository.update, hkup] at h
        by_cases hv : v ≠ Val.nat repo.project_id
        · rw [if_pos hv] at h
          cases h
        · rw [if_neg hv] at h
          refine updateApply_project_map ?_ h
          intro kv hkv
          have := List.mem_filter.mp hkv
          simpa using this.2
  · intro hno
    cases hkup : List.lookup "project_id" data with
    | none =>
        left
        simp only [BaseRepository.update, hkup]
        exact updateApply_no_match data hno
    | some v =>
        by_cases hv : v ≠ Val.nat repo.project_id
        · right
          refine ⟨"Cannot change project_id. Record belongs to project " ++
            toString repo.project_id, ?_⟩
          simp only [BaseRepository.update, hkup]
          rw [if_pos hv]
        · left
          simp only [BaseRepository.update, hkup]
          rw [if_neg hv]
          exact updateApply_no_match _ hno

/-- Witness for C8 at concrete data: a mismatched payload `project_id` is
rejected; an update that matches no row in the project returns `None` with
the database unchanged; a successful update keeps the `project_id` column
of every row. -/
theorem update_frame_and_atomicity_witness :
    (∃ msg, BaseRepository.update exRepo exDb 10 [("project_id", Val.nat 2)] =
      .error (.valueError msg)) ∧
    (BaseRepository.update exRepo exDb 99 [("status", Val.nat 9)] =
      .ok (none, exDb) ∨
      ∃ msg, BaseRepository.update exRepo exDb 99 [("status", Val.nat 9)] =
        .error (.valueError msg)) ∧
    (∃ res db', BaseRepository.update exRepo exDb 10 [("status", Val.nat 9)] =
      .ok (res, db') ∧ db'.map Row.project_id = exDb.map Row.project_id) := by
  refine ⟨?_, ?_, ?_⟩
  · exact (update_frame_and_atomicity exRepo exDb 10 [("project_id", Val.nat 2)]).1
      (Val.nat 2) rfl (by decide)
  · exact (update_frame_and_atomicity exRepo exDb 99 [("status", Val.nat 9)]).2.2.2
      (by decide)
  · refine ⟨some (applyData [("status", Val.nat 9)] exRowLive),
      [applyData [("status", Val.nat 9)] exRowLive, exRowDeleted, exRowOther], rfl, ?_⟩
    exact ((update_frame_and_atomicity exRepo exDb 10 [("status", Val.nat 9)]).2.2.1
      _ _ rfl).1

/-- C4: identifier extraction order.  The middleware takes the project
identifier from the first available of (1) the X-Project-ID header, (2) the
project_id query parameter, (3) the project_id path parameter (availability
being a supplied, nonempty value, and the query value being the one the
multi-dict returns); when the value parses as a UUID it stores the
`ProjectContext` in the request state, when it does not parse it raises
400, and when no identifier is found it leaves the state unset and
forwards the request unchanged. -/
theorem dispatch_extraction_order (req : Request) :
    (firstAvailable req = none → dispatch req = .ok none) ∧
    (∀ s u, firstAvailable req = some s → pyUUID s = some u →
      dispatch req = .ok (some (ProjectContext.mk u none none))) ∧
    (∀ s, firstAvailable req = some s → pyUUID s = none →
      ∃ d, dispatch req = .error (.httpError 400 d)) := by
  refine ⟨?_, ?_, ?_⟩
  · intro hfa
    rcases dispatch_cases req with ⟨_, hd⟩ | ⟨s, u, hs, _, _⟩ | ⟨s, d, hs, _, _⟩
    · exact hd
    · rw [hfa] at hs
      cases hs
    · rw [hfa] at hs
      cases hs
  · intro s u hfa hp
    rcases dispatch_cases req with ⟨hn, _⟩ | ⟨s2, u2, hs, hp2, hd⟩ | ⟨s2, d, hs, hp2, _⟩
    · rw [hfa] at hn
      cases hn
    · rw [hfa] at hs
      injection hs with hs
      subst hs
      rw [hp] at hp2
      injection hp2 with hp2
      subst hp2
      exact hd
    · rw [hfa] at hs
      injection hs with hs
      subst hs
      rw [hp] at hp2
      cases hp2
  · intro s hfa hp
    rcases dispatch_cases req with ⟨hn, _⟩ | ⟨s2, u2, hs, hp2, _⟩ | ⟨s2, d, hs, hp2, hd⟩
    · rw [hfa] at hn
      cases hn
    · rw [hfa] at hs
      injection hs with hs
      subst hs
      rw [hp] at hp2
      cases hp2
    · exact ⟨d, hd⟩

/-- Witness for C4 at concrete requests: the header wins over query and
path, and an empty request leaves the state unset. -/
theorem dispatch_extraction_order_witness :
    dispatch (Request.mk [("X-Project-ID", "00000000-0000-0000-0000-000000000001")]
        [("project_id", "00000000-0000-0000-0000-000000000002")]
        [("project_id", "00000000-0000-0000-0000-000000000003")]) =
      .ok (some (ProjectContext.mk 1 none none)) ∧
    dispatch (Request.mk [] [] []) = .ok none := by
  constructor
  · exact (dispatch_extraction_order _).2.1
      "00000000-0000-0000-0000-000000000001" 1 rfl (by decide)
  · exact (dispatch_extraction_order _).1 rfl

/-- A request with no header and a repeated project_id query parameter:
the first occurrence is invalid, the last is a valid UUID. -/
def exReqDupQuery : Request :=
  ⟨[], [("project_id", "zzz"),
    ("project_id", "00000000-0000-0000-0000-000000000002")], []⟩

/-- C5 counterexample: the middleware reads the last occurrence of a
repeated project_id query parameter, so it raises no 400 even though the
first value supplied for the identifier is not a valid UUID — while the
query dependency, which reads the first occurrence, does raise 400 on the
same request. -/
theorem dispatch_uses_last_query_occurrence :
    firstSupplied exReqDupQuery = some "zzz" ∧
    pyUUID "zzz" = none ∧
    dispatch exReqDupQuery = .ok (some (ProjectContext.mk 2 none none)) ∧
    get_project_id_from_query exReqDupQuery =
      .error (.httpError 400 "Invalid project ID format: zzz") := by
  exact ⟨rfl, by decide, rfl, rfl⟩

/-- C5 (amended): each project-identifier extractor raises 400 exactly on
the invalid or (for the header and query dependencies) missing value it
examines — the middleware examines the first available value, with the
last occurrence of a repeated query parameter; the query dependency
examines the first occurrence; empty values count as missing — and on a
valid UUID string each extractor returns or records exactly the parsed
UUID. -/
theorem extractors_400_iff :
    (∀ req, (∃ d, dispatch req = .error (.httpError 400 d)) ↔
      (∃ s, firstAvailable req = some s ∧ pyUUID s = none)) ∧
    (∀ req s u, firstAvailable req = some s → pyUUID s = some u →
      dispatch req = .ok (some (ProjectContext.mk u none none))) ∧
    (∀ x, (∃ d, get_project_id_from_header x = .error (.httpError 400 d)) ↔
      (truthy x = none ∨ ∃ s, truthy x = some s ∧ pyUUID s = none)) ∧
    (∀ x u, get_project_id_from_header x = .ok u ↔
      (∃ s, truthy x = some s ∧ pyUUID s = some u)) ∧
    (∀ req, (∃ d, get_project_id_from_query req = .error (.httpError 400 d)) ↔
      ((req.queryGetList "project_id").head? = none ∨
        (req.queryGetList "project_id").head? = some "" ∨
        (∃ s, (req.queryGetList "project_id").head? = some s ∧ pyUUID s = none))) ∧
    (∀ req u, get_project_id_from_query req = .ok u ↔
      (∃ s, (req.queryGetList "project_id").head? = some s ∧ ¬s = "" ∧
        pyUUID s = some u)) ∧
    (∀ v, (∃ d, get_project_id_from_path v = .error (.httpError 400 d)) ↔
      pyUUID v = none) ∧
    (∀ v u, get_project_id_from_path v = .ok u ↔ pyUUID v = some u) := by
  refine ⟨?_, ?_, ?_, ?_, ?_, ?_, ?_, ?_⟩
  · intro req
    constructor
    · rintro ⟨d, hd⟩
      rcases dispatch_cases req with ⟨_, hd2⟩ | ⟨s, u, _, _, hd2⟩ | ⟨s, d2, hs, hp, hd2⟩
      · rw [hd2] at hd
        cases hd
      · rw [hd2] at hd
        cases hd
      · exact ⟨s, hs, hp⟩
    · rintro ⟨s, hs, hp⟩
      rcases dispatch_cases req with ⟨hn, _⟩ | ⟨s2, u2, hs2, hp2, _⟩ | ⟨s2, d, hs2, hp2, hd⟩
      · rw [hs] at hn
        cases hn
      · rw [hs] at hs2
        injection hs2 with hs2
        subst hs2
        rw [hp] at hp2
        cases hp2
      · exact ⟨d, hd⟩
  · intro req s u hfa hp
    rcases dispatch_cases req with ⟨hn, _⟩ | ⟨s2, u2, hs2, hp2, hd⟩ | ⟨s2, d, hs2, hp2, _⟩
    · rw [hfa] at hn
      cases hn
    · rw [hfa] at hs2
      injection hs2 with hs2
      subst hs2
      rw [hp] at hp2
      injection hp2 with hp2
      subst hp2
      exact hd
    · rw [hfa] at hs2
      injection hs2 with hs2
      subst hs2
      rw [hp] at hp2
      cases hp2
  · intro x
    cases ht : truthy x with
    | none => simp [get_project_id_from_header, ht]
    | some s =>
        cases hp : pyUUID s <;> simp [get_project_id_from_header, ht, hp]
  · intro x u
    cases ht : truthy x with
    | none => simp [get_project_id_from_header, ht]
    | some s =>
        cases hp : pyUUID s with
        | none => simp [get_project_id_from_header, ht, hp]
        | some u2 =>
            simp only [get_project_id_from_header, ht, hp]
            constructor
            · intro h
              injection h with h
              refine ⟨s, rfl, ?_⟩
              rw [← h]
              exact hp
            · rintro ⟨s2, hs2, hp2⟩
              injection hs2 with hs2
              subst hs2
              rw [hp] at hp2
              injection hp2 with hp2
              rw [hp2]
  · intro req
    cases hl : req.queryGetList "project_id" with
    | nil => simp [get_project_id_from_query, hl]
    | cons raw rest =>
        by_cases hr : raw = ""
        · subst hr
          simp [get_project_id_from_query, hl]
        · cases hp : pyUUID raw <;>
            simp [get_project_id_from_query, hl, hr, hp]
  · intro req u
    cases hl : req.queryGetList "project_id" with
    | nil => simp [get_project_id_from_query, hl]
    | cons raw rest =>
        by_cases hr : raw = ""
        · subst hr
          simp [get_project_id_from_query, hl]
        · cases hp : pyUUID raw with
          | none =>
              have hred : get_project_id_from_query req =
                  .error (.httpError 400 ("Invalid project ID format: " ++ raw)) := by
                simp [get_project_id_from_query, hl, hr, hp]
              rw [hred]
              simp only [List.head?_cons]
              constructor
              · intro h
                cases h
              · rintro ⟨s2, hs2, hne, hp2⟩
                injection hs2 with hs2
                subst hs2
                rw [hp] at hp2
                cases hp2
          | some u2 =>
              have hred : get_project_id_from_query req = .ok u2 := by
                simp [get_project_id_from_query, hl, hr, hp]
              rw [hred]
              simp only [List.head?_cons]
              constructor
              · intro h
                injection h with h
                refine ⟨raw, rfl, hr, ?_⟩
                rw [← h]
                exact hp
              · rintro ⟨s2, hs2, hne, hp2⟩
                injection hs2 with hs2
                subst hs2
                rw [hp] at hp2
                injection hp2 with hp2
                rw [hp2]
  · intro v
    cases hp : pyUUID v <;> simp [get_project_id_from_path, hp]
  · intro v u
    cases hp : pyUUID v with
    | none => simp [get_project_id_from_path, hp]
    | some u2 =>
        simp only [get_project_id_from_path, hp]
        constructor
        · intro h
          injection h with h
          rw [h]
        · intro h
          injection h with h
          rw [h]

/-- Witness for C5's amended theorem at concrete inputs: the middleware
accepts a valid header, the header dependency rejects an absent header,
and the path dependency parses a valid UUID. -/
theorem extractors_400_iff_witness :
    dispatch (Request.mk [("X-Project-ID", "00000000-0000-0000-0000-000000000005")] [] []) =
      .ok (some (ProjectContext.mk 5 none none)) ∧
    (∃ d, get_project_id_from_header none = .error (.httpError 400 d)) ∧
    get_project_id_from_path "00000000-0000-0000-0000-000000000007" = .ok 7 := by
  refine ⟨?_, ?_, ?_⟩
  · exact extractors_400_iff.2.1 _ "00000000-0000-0000-0000-000000000005" 5 rfl (by decide)
  · exact (extractors_400_iff.2.2.1 none).mpr (Or.inl rfl)
  · exact (extractors_400_iff.2.2.2.2.2.2.2 "00000000-0000-0000-0000-000000000007" 7).mpr
      (by decide)

/-- C6 counterexample: the session dependency transforms non-SQLAlchemy
exceptions too — a ValueError escaping the request body becomes a 500
HTTPException instead of passing through untransformed, so exception
handling in these components is not limited to the two mappings the claim
lists. -/
theorem db_session_transforms_every_exception :
    (getDbSessionContext (Except.error (PyExc.valueError "boom") : Except PyExc Unit)).1 =
      Except.error (PyExc.httpError 500
        "An unexpected error occurred. Please try again later.") ∧
    (getDbSessionContext (Except.error (PyExc.valueError "boom") : Except PyExc Unit)).1 ≠
      Except.error (PyExc.valueError "boom") := by
  exact ⟨rfl, by decide⟩

/-- C6 (amended): the session dependency maps every exception raised
during the request — SQLAlchemyError, with its dedicated detail, or any
other exception — to a 500 HTTPException after rolling back, committing
and passing through successful results; the repository factory maps every
exception raised while constructing a repository to a 500 HTTPException
and passes a constructed repository through. -/
theorem error_mapping_500 :
    (∀ (α : Type) (a : α), getDbSessionContext (Except.ok a) =
      (Except.ok a, ⟨true, false, true⟩)) ∧
    (∀ (α : Type) (e : PyExc), ∃ d,
      getDbSessionContext (Except.error e : Except PyExc α) =
        (Except.error (PyExc.httpError 500 d), ⟨false, true, true⟩)) ∧
    (∀ e, e.isSQLAlchemyError = true → ∀ (α : Type),
      getDbSessionContext (Except.error e : Except PyExc α) =
        (Except.error (PyExc.httpError 500
          "Database operation failed. Please try again later."), ⟨false, true, true⟩)) ∧
    (∀ repo, repositoryFactory (Except.ok repo) = Except.ok repo) ∧
    (∀ e, ∃ d, repositoryFactory (Except.error e) =
      Except.error (PyExc.httpError 500 d)) := by
  refine ⟨?_, ?_, ?_, ?_, ?_⟩
  · intro α a
    rfl
  · intro α e
    by_cases hsa : e.isSQLAlchemyError = true
    · exact ⟨"Database operation failed. Please try again later.",
        by simp [getDbSessionContext, hsa]⟩
    · exact ⟨"An unexpected error occurred. Please try again later.",
        by simp [getDbSessionContext, hsa]⟩
  · intro e hsa α
    simp [getDbSessionContext, hsa]
  · intro repo
    rfl
  · intro e
    cases e with
    | valueError msg => exact ⟨"Failed to initialize repository: " ++ msg, rfl⟩
    | attributeError msg => exact ⟨"Failed to create repository instance.", rfl⟩
    | multipleResultsFound => exact ⟨"Failed to create repository instance.", rfl⟩
    | sqlAlchemyError msg => exact ⟨"Failed to create repository instance.", rfl⟩
    | httpError st d => exact ⟨"Failed to create repository instance.", rfl⟩

/-- Witness for C6's amended theorem at concrete inputs: a SQLAlchemy
error is rolled back and mapped to its 500 detail, and the ValueError of a
missing project_id is mapped to a 500 by the factory. -/
theorem error_mapping_500_witness :
    getDbSessionContext (Except.error (PyExc.sqlAlchemyError "db down") : Except PyExc Unit) =
      (Except.error (PyExc.httpError 500
        "Database operation failed. Please try again later."), ⟨false, true, true⟩) ∧
    (∃ d, repositoryFactory
        (Except.error (PyExc.valueError "project_id is required and cannot be None")) =
      Except.error (PyExc.httpError 500 d)) := by
  constructor
  · exact error_mapping_500.2.2.1 (PyExc.sqlAlchemyError "db down") rfl Unit
  · exact error_mapping_500.2.2.2.2 (PyExc.valueError "project_id is required and cannot be None")

/-- C9: hard delete ignores soft-delete state.  With `id` a primary key
(no duplicate ids in the database), `delete` returns `true` and permanently
removes the row exactly when a row with that id exists in the repository's
project — its `deleted_at` state is irrelevant, since `delMatch` never
consults it — and returns `false` leaving the database unchanged when no
such row exists. -/
theorem delete_ignores_soft_delete (repo : BaseRepository) (db : List Row) (id : Nat)
    (hnd : (db.map Row.id).Nodup) :
    (∀ r ∈ db, r.id = id → r.project_id = repo.project_id →
      ∃ l₁ l₂, db = l₁ ++ r :: l₂ ∧ repo.delete db id = .ok (true, l₁ ++ l₂)) ∧
    ((∀ r ∈ db, ¬(r.id = id ∧ r.project_id = repo.project_id)) →
      repo.delete db id = .ok (false, db)) := by
  constructor
  · intro r hr hid hpm
    have hm : repo.delMatch id r = true := by
      simp [BaseRepository.delMatch, hid, hpm]
    obtain ⟨a, l₁, l₂, hnl, hpa, hdb, herase⟩ := List.exists_of_eraseP hr hm
    have ha_mem : a ∈ db := by
      rw [hdb]
      simp
    have ha_eq : a = r := mem_id_unique hnd a ha_mem r hr
      (by rw [delMatch_id hpa, delMatch_id hm])
    refine ⟨l₁, l₂, by rw [hdb, ha_eq], ?_⟩
    simp only [BaseRepository.delete, filter_delMatch_single hnd hr hm,
      scalarOneOrNone]
    rw [herase]
  · intro hno
    have hfil : db.filter (repo.delMatch id) = [] := by
      rw [List.filter_eq_nil_iff]
      intro a ha hma
      apply hno a ha
      refine ⟨delMatch_id hma, ?_⟩
      have := (Bool.and_eq_true _ _).mp hma
      simpa using this.2
    simp only [BaseRepository.delete, hfil, scalarOneOrNone]

/-- Witness for C9 at concrete data: deleting the soft-deleted row 11
succeeds and removes it; deleting an absent id returns `false` and keeps
the database. -/
theorem delete_ignores_soft_delete_witness :
    (∃ l₁ l₂, exDb = l₁ ++ exRowDeleted :: l₂ ∧
      BaseRepository.delete exRepo exDb 11 = .ok (true, l₁ ++ l₂)) ∧
    BaseRepository.delete exRepo exDb 99 = .ok (false, exDb) := by
  constructor
  · exact (delete_ignores_soft_delete exRepo exDb 11 (by decide)).1 exRowDeleted
      (by decide) rfl rfl
  · exact (delete_ignores_soft_delete exRepo exDb 99 (by decide)).2 (by decide)

/-- C10: unknown filter keys are silently ignored.  In `list` and `count`
each keyword filter whose key is a model attribute contributes an equality
condition on that attribute, while a key that is not a model attribute is
dropped without error, so a call whose filter keys are all unrecognized
returns the same result as a call with no filters. -/
theorem unknown_filter_keys_ignored (repo : BaseRepository) (db : List Row) :
    (∀ fs q, BaseRepository.applyFilters repo.model fs q =
      q.filter (fun r => fs.all (fun kv => !repo.model.hasAttr kv.1 ||
        sqlEqVal (r.getCol kv.1) kv.2))) ∧
    (∀ fs, (∀ kv ∈ fs, repo.model.hasAttr kv.1 = false) →
      (∀ skip limit incl ob,
        repo.list db skip limit incl ob fs = repo.list db skip limit incl ob []) ∧
      (∀ incl, repo.count db incl fs = repo.count db incl [])) := by
  constructor
  · intro fs q
    exact BaseRepository.applyFilters_eq_filter repo.model fs q
  · intro fs hfs
    have hrows : ∀ incl, repo.listRows db incl fs = repo.listRows db incl [] := by
      intro incl
      simp only [BaseRepository.listRows,
        BaseRepository.applyFilters_of_all_unknown repo.model hfs,
        BaseRepository.applyFilters]
    constructor
    · intro skip limit incl ob
      simp only [BaseRepository.list, hrows]
    · intro incl
      simp only [BaseRepository.count, hrows]

/-- Witness for C10 at concrete data: a filter on a key the model does not
have leaves `list` and `count` unchanged. -/
theorem unknown_filter_keys_ignored_witness :
    BaseRepository.list exRepo exDb 0 100 false none [("bogus", Val.nat 3)] =
      BaseRepository.list exRepo exDb 0 100 false none [] ∧
    BaseRepository.count exRepo exDb false [("bogus", Val.nat 3)] =
      BaseRepository.count exRepo exDb false [] := by
  constructor
  · exact (((unknown_filter_keys_ignored exRepo exDb).2 [("bogus", Val.nat 3)]
      (by decide)).1) 0 100 false none
  · exact (((unknown_filter_keys_ignored exRepo exDb).2 [("bogus", Val.nat 3)]
      (by decide)).2) false

end CostaBB
